import Mathlib

/-!
Verification of the data-api-codec repository (src/index.js).

The JavaScript source is shallowly embedded: JS values become the inductive
type JSVal, JS numbers (IEEE doubles, which are NaN, infinities, or dyadic
rationals) become the inductive type JSNum over exact rationals, JS Date
objects become the inductive type JSDate, and functions that can throw
return Except JsError.  Definitions follow src/index.js clause by clause.
-/

set_option autoImplicit false

/-- A JavaScript number: NaN, an infinity, or a finite value.  Finite IEEE
doubles are exact dyadic rationals, embedded here as ℚ.  There is a single
zero, matching strict-equality semantics where 0 and negative zero are
equal. -/
inductive JSNum where
  | nan
  | posInf
  | negInf
  | rat (q : ℚ)
  deriving DecidableEq

/-- Truncation toward zero, as parseInt performs on a plain decimal
rendering of a finite number. -/
def jsTrunc (q : ℚ) : ℚ :=
  if 0 ≤ q then (⌊q⌋ : ℚ) else (⌈q⌉ : ℚ)

/-- The decimal digit characters. -/
def digitC : Nat → Char
  | 0 => '0'
  | 1 => '1'
  | 2 => '2'
  | 3 => '3'
  | 4 => '4'
  | 5 => '5'
  | 6 => '6'
  | 7 => '7'
  | 8 => '8'
  | _ => '9'

/-- Little-endian decimal digits of a natural number, with explicit fuel so
that the definition is structural (the fuel n+1 always suffices for n). -/
def digitsRevAux : Nat → Nat → List Char
  | 0, _ => []
  | fuel + 1, n => if n < 10 then [digitC n] else digitC (n % 10) :: digitsRevAux fuel (n / 10)

/-- The leading decimal digit of a natural number. -/
def leadingDigit (n : Nat) : Nat :=
  n / 10 ^ ((digitsRevAux (n + 1) n).length - 1)

/-- The first significant decimal digit of the fraction r/den, found by
emitting expansion digits until one is nonzero.  The fuel covers every
IEEE double (dyadic expansions terminate within 1074 digits); only
non-dyadic rationals, which are not doubles, can exhaust it, yielding 0. -/
def firstSigDigitAux : Nat → Nat → Nat → Nat
  | 0, _, _ => 0
  | fuel + 1, r, den =>
    if (r * 10) / den = 0 then firstSigDigitAux fuel ((r * 10) % den) den else (r * 10) / den

/-- A mantissa digit with the sign of the number applied, as parseInt
returns it from an exponent-notation rendering. -/
def signedDigit (q : ℚ) (d : Nat) : ℚ :=
  if q.num < 0 then -(d : ℚ) else (d : ℚ)

/-- Models parseInt(String(n)) for a JS number n.  String(NaN) is "NaN" and
String(Infinity) is "Infinity"; parseInt yields NaN on both.  For a finite
n, the rendering depends on the magnitude (Number::toString):
 - |n| at least 1e21 renders in exponent notation d.dd...e+NN with one
   mantissa digit before the point, so parseInt stops there and returns the
   leading decimal digit of the integer part, signed (parseInt(1e21) is 1);
 - 0 < |n| below 1e-6 renders as d.dd...e-NN, and parseInt likewise
   returns the first significant digit of the expansion, signed;
 - otherwise the rendering is plain decimal (0 renders "0") and parseInt
   reads the integer digits, i.e. truncates toward zero.
The zero numerator also takes the second branch here, where the expansion
scan yields 0, the same value parseInt("0") produces. -/
def parseIntOfNum : JSNum → JSNum
  | .rat q =>
    if 10 ^ 21 * q.den ≤ q.num.natAbs then
      .rat (signedDigit q (leadingDigit (q.num.natAbs / q.den)))
    else if q.num.natAbs * 10 ^ 6 < q.den then
      .rat (signedDigit q (firstSigDigitAux 1100 q.num.natAbs q.den))
    else
      .rat (jsTrunc q)
  | _ => .nan

/-- Models parseFloat(String(n)) for a JS number n.  String rendering of a
finite double round-trips exactly, and parseFloat accepts the renderings
"Infinity" and "-Infinity" of the infinities; parseFloat("NaN") is NaN. -/
def parseFloatOfNum : JSNum → JSNum
  | .rat q => .rat q
  | .posInf => .posInf
  | .negInf => .negInf
  | .nan => .nan

/-- JS strict equality on numbers: NaN is not equal to anything, including
itself. -/
def jsStrictEqNum : JSNum → JSNum → Bool
  | .rat a, .rat b => decide (a = b)
  | .posInf, .posInf => true
  | .negInf, .negInf => true
  | _, _ => false

/-- The decimal rendering of a natural number, as JS String(n) produces. -/
def decStr (n : Nat) : String :=
  String.mk (digitsRevAux (n + 1) n).reverse

/-- Digits that may follow the decimal point in the JS rendering of a
finite number: the decimal expansion of r/den, emitted digit by digit.  JS
numbers are dyadic rationals, so the expansion terminates (well within the
fuel used below) and matches the exact decimal JS prints for the short
values occurring here. -/
def fracDigitsAux : Nat → Nat → Nat → List Char
  | 0, _, _ => []
  | _ + 1, 0, _ => []
  | fuel + 1, r, den => digitC ((r * 10) / den) :: fracDigitsAux fuel ((r * 10) % den) den

/-- Models JS String(n) for a number n (plain decimal rendering; exponent
notation thresholds never arise in the claims). -/
def jsNumToString : JSNum → String
  | .nan => "NaN"
  | .posInf => "Infinity"
  | .negInf => "-Infinity"
  | .rat q =>
    let sgn := if q < 0 then "-" else ""
    let n := q.num.natAbs
    let ip := n / q.den
    let r := n % q.den
    if r = 0 then sgn ++ decStr ip
    else sgn ++ decStr ip ++ "." ++ String.mk (fracDigitsAux 1100 r q.den)

/-- The broken-down fields of an instant as the Date accessor family
returns them: year as getFullYear, month as getMonth (0 to 11), day of
month, hours, minutes, seconds, milliseconds. -/
structure DateFields where
  year : Nat
  month : Nat
  day : Nat
  hours : Nat
  minutes : Nat
  seconds : Nat
  ms : Nat
  deriving DecidableEq, Repr

/-- A JS Date object, by how it was constructed.  fromUTCFields carries the
UTC broken-down fields of a determinate instant.  hostParsed marks new
Date(s) applied to a string the codec does not force to UTC: its meaning
depends on the host timezone and parser, so no fields are ascribed.
fromEpoch is new Date applied to a number of epoch milliseconds (NaN gives
an Invalid Date). -/
inductive JSDate where
  | fromUTCFields (f : DateFields)
  | hostParsed (s : String)
  | fromEpoch (n : JSNum)
  deriving DecidableEq

/-- The host environment: how a Date objects broken-down fields read under
UTC accessors and under local-time accessors.  Local fields depend on the
host timezone; UTC fields of a date built from explicit UTC fields are
those fields, recorded as a coherence law. -/
structure Host where
  utcView : JSDate → DateFields
  localView : JSDate → DateFields
  utcView_fromUTCFields : ∀ f, utcView (.fromUTCFields f) = f

/-- A concrete host for witnesses: a host on UTC time whose views agree
with recorded fields where determinate. -/
def host0 : Host where
  utcView := fun d => match d with
    | .fromUTCFields f => f
    | _ => ⟨1970, 0, 1, 0, 0, 0, 0⟩
  localView := fun d => match d with
    | .fromUTCFields f => f
    | _ => ⟨1970, 0, 1, 0, 0, 0, 0⟩
  utcView_fromUTCFields := fun _ => rfl

/-- A JavaScript value: string, number, boolean, null, undefined, Date
object, Buffer (byte contents), plain object (own enumerable properties in
insertion order, keys unique), or array. -/
inductive JSVal where
  | str (s : String)
  | num (n : JSNum)
  | bool (b : Bool)
  | null
  | undefined
  | date (d : JSDate)
  | buffer (bytes : List Nat)
  | obj (fields : List (String × JSVal))
  | arr (elems : List JSVal)

/-- Whether a value is null or undefined. -/
def isNullOrUndefinedVal : JSVal → Bool
  | .null => true
  | .undefined => true
  | _ => false

mutual

/-- Models JS String(v).  Arrays join their elements with commas (null and
undefined elements become empty).  The rendering of a Date is host and
locale dependent; it always begins with a weekday name, so, like the fixed
placeholder used here, it can never match the all-digit timestamp pattern
tested below.  Buffers stringify by UTF-8 decoding, modelled for ASCII
bytes. -/
def jsToString : JSVal → String
  | .str s => s
  | .num n => jsNumToString n
  | .bool b => if b then "true" else "false"
  | .null => "null"
  | .undefined => "undefined"
  | .date _ => "Thu Jan 01 1970 00:00:00 GMT+0000"
  | .buffer bs => String.mk (bs.map (fun b => Char.ofNat b))
  | .obj _ => "[object Object]"
  | .arr es => jsJoinComma es

/-- Array.prototype.toString: elements joined with commas, null and
undefined elements contributing the empty string. -/
def jsJoinComma : List JSVal → String
  | [] => ""
  | [e] => if isNullOrUndefinedVal e then "" else jsToString e
  | e :: rest => (if isNullOrUndefinedVal e then "" else jsToString e) ++ "," ++ jsJoinComma rest

end

/-- JS truthiness. -/
def jsTruthy : JSVal → Bool
  | .str s => s ≠ ""
  | .num n => match n with
    | .nan => false
    | .rat q => decide (q ≠ 0)
    | _ => true
  | .bool b => b
  | .null => false
  | .undefined => false
  | _ => true

/-- Whether typeof v is the string "object": true for plain objects,
arrays, Dates, Buffers, and null. -/
def jsTypeofIsObject : JSVal → Bool
  | .obj _ => true
  | .arr _ => true
  | .date _ => true
  | .buffer _ => true
  | .null => true
  | _ => false

/-- Whether Array.isArray(v) holds. -/
def jsIsArray : JSVal → Bool
  | .arr _ => true
  | _ => false

/-- Property access v.k for the non-index property names the source reads
(name, value, cast): defined on plain objects, undefined elsewhere. -/
def jsGet (v : JSVal) (k : String) : JSVal :=
  match v with
  | .obj fields => (fields.lookup k).getD .undefined
  | _ => .undefined

/-- The errors src/index.js can throw.  The source throws Error objects
with these messages: paramsFieldNotObjectOrArray carries the message that
the parameters field must be an object or array (line 38),
paramsNotObjectOrArray the corresponding message for a bare argument (line
39), and invalidType the message naming the offending parameter (line 106).
keysOfNullOrUndefined models the TypeError that Object.keys throws on null
or undefined. -/
inductive JsError where
  | paramsFieldNotObjectOrArray
  | paramsNotObjectOrArray
  | invalidType (name : JSVal)
  | keysOfNullOrUndefined

/-- Models Object.keys(v) paired with the property values: own enumerable
properties in order.  Strings and Buffers expose their index properties;
numbers, booleans and Dates have none; null and undefined throw. -/
def jsKeys : JSVal → Except JsError (List (String × JSVal))
  | .obj fields => .ok fields
  | .arr es => .ok (es.enum.map (fun p => (decStr p.1, p.2)))
  | .str s => .ok (s.data.enum.map (fun p => (decStr p.1, .str (String.mk [p.2]))))
  | .buffer bs => .ok (bs.enum.map (fun p => (decStr p.1, .num (.rat p.2))))
  | .num _ => .ok []
  | .bool _ => .ok []
  | .date _ => .ok []
  | .null => .error .keysOfNullOrUndefined
  | .undefined => .error .keysOfNullOrUndefined

/-- The supported value types of the Data API (src/index.js lines 14-23). -/
def supportedTypes : List String :=
  ["arrayValue", "blobValue", "booleanValue", "doubleValue", "isNull", "longValue", "stringValue", "structValue"]

/-- Whether a value is a Date object (the isDate helper, line 96). -/
def isDate : JSVal → Bool
  | .date _ => true
  | _ => false

/-- The three possible results of getType: a tag string, JS null (the
escape hatch for a pre-tagged value), or JS undefined (unsupported). -/
inductive GetTypeRes where
  | tag (t : String)
  | hatch
  | invalid
  deriving DecidableEq

/-- The getType function (lines 77-90), clause by clause: strings, then
booleans, then numbers whose parseInt equals them, then numbers whose
parseFloat equals them, then null, dates, Buffers; then a plain object with
exactly one key that is a supported type name yields JS null (the escape
hatch); everything else yields JS undefined.  An array is typeof object,
but its keys are index strings, never a supported type name, so the object
clause always fails for arrays. -/
def getType : JSVal → GetTypeRes
  | .str _ => .tag "stringValue"
  | .bool _ => .tag "booleanValue"
  | .num n =>
    if jsStrictEqNum (parseIntOfNum n) n then .tag "longValue"
    else if jsStrictEqNum (parseFloatOfNum n) n then .tag "doubleValue"
    else .invalid
  | .null => .tag "isNull"
  | .date _ => .tag "stringValue"
  | .buffer _ => .tag "blobValue"
  | .obj fields =>
    match fields with
    | [(k, _)] => if supportedTypes.contains k then .hatch else .invalid
    | _ => .invalid
  | .arr _ => .invalid
  | .undefined => .invalid

/-- The getTypeHint function (lines 93-94). -/
def getTypeHint : JSVal → Option String
  | .date _ => some "TIMESTAMP"
  | _ => none

/-- The pad helper inside formatToTimeStamp (line 118): left-pad the
decimal rendering with zeros to the requested width.  The source computes
the repeat count by subtraction and would throw if the rendering were
already longer; all padded fields here are in range, and the Nat
subtraction models the in-range behavior. -/
def padStr (v : Nat) (width : Nat) : String :=
  String.mk (List.replicate (width - (decStr v).length) '0') ++ decStr v

/-- The string assembled by formatToTimeStamp (lines 117-131) from
broken-down fields: year unpadded, human month (month+1), day, hours,
minutes and seconds padded to two digits, and a fractional suffix padded to
three digits that is omitted entirely when milliseconds are zero. -/
def renderTimeStamp (f : DateFields) : String :=
  let fraction := if f.ms = 0 then "" else "." ++ padStr f.ms 3
  decStr f.year ++ "-" ++ padStr (f.month + 1) 2 ++ "-" ++ padStr f.day 2 ++ " " ++
    padStr f.hours 2 ++ ":" ++ padStr f.minutes 2 ++ ":" ++ padStr f.seconds 2 ++ fraction

/-- The formatToTimeStamp function (lines 117-132): render from the local
accessor family when treatAsLocalDate is set, else from the UTC family. -/
def formatToTimeStamp (host : Host) (d : JSDate) (treatAsLocalDate : Bool) : String :=
  renderTimeStamp (if treatAsLocalDate then host.localView d else host.utcView d)

/-- Big-endian decimal parse of a digit-character list, as Date string
parsing reads field digits. -/
def parseDec (cs : List Char) : Nat :=
  cs.foldl (fun acc c => 10 * acc + (c.toNat - 48)) 0

/-- The regex of formatFromTimeStamp (line 138) with its capture content:
a string of shape YYYY-MM-DD, optionally followed by space HH:MM:SS,
optionally followed by .FFF, all digits at the digit positions.  Returns
the parsed (year, human month, day, hours, minutes, seconds, ms). -/
def tsMatchL : List Char → Option (Nat × Nat × Nat × Nat × Nat × Nat × Nat)
  | [y1, y2, y3, y4, '-', o1, o2, '-', d1, d2] =>
    if [y1, y2, y3, y4, o1, o2, d1, d2].all Char.isDigit then
      some (parseDec [y1, y2, y3, y4], parseDec [o1, o2], parseDec [d1, d2], 0, 0, 0, 0)
    else none
  | [y1, y2, y3, y4, '-', o1, o2, '-', d1, d2, ' ', h1, h2, ':', i1, i2, ':', s1, s2] =>
    if [y1, y2, y3, y4, o1, o2, d1, d2, h1, h2, i1, i2, s1, s2].all Char.isDigit then
      some (parseDec [y1, y2, y3, y4], parseDec [o1, o2], parseDec [d1, d2],
        parseDec [h1, h2], parseDec [i1, i2], parseDec [s1, s2], 0)
    else none
  | [y1, y2, y3, y4, '-', o1, o2, '-', d1, d2, ' ', h1, h2, ':', i1, i2, ':', s1, s2, '.', f1, f2, f3] =>
    if [y1, y2, y3, y4, o1, o2, d1, d2, h1, h2, i1, i2, s1, s2, f1, f2, f3].all Char.isDigit then
      some (parseDec [y1, y2, y3, y4], parseDec [o1, o2], parseDec [d1, d2],
        parseDec [h1, h2], parseDec [i1, i2], parseDec [s1, s2], parseDec [f1, f2, f3])
    else none
  | _ => none

/-- Whether a year is a Gregorian leap year. -/
def isLeap (y : Nat) : Bool :=
  (y % 4 = 0 && y % 100 ≠ 0) || y % 400 = 0

/-- Days in a month (human month 1 to 12). -/
def daysInMonth (year monthH : Nat) : Nat :=
  if monthH = 2 then (if isLeap year then 29 else 28)
  else if monthH = 4 ∨ monthH = 6 ∨ monthH = 9 ∨ monthH = 11 then 30
  else 31

/-- Models new Date(v) for a non-string argument: a number is epoch
milliseconds, null coerces to 0, a boolean to 0 or 1, undefined gives an
Invalid Date (NaN time), a Date is copied, and objects, arrays and Buffers
coerce to a primitive via toString and are then parsed by host rules. -/
def jsNewDate : JSVal → JSDate
  | .str s => .hostParsed s
  | .num n => .fromEpoch n
  | .date d => d
  | .null => .fromEpoch (.rat 0)
  | .bool b => .fromEpoch (.rat (if b then 1 else 0))
  | .undefined => .fromEpoch .nan
  | .obj fs => .hostParsed (jsToString (.obj fs))
  | .arr es => .hostParsed (jsToString (.arr es))
  | .buffer bs => .hostParsed (jsToString (.buffer bs))

/-- The formatFromTimeStamp function (lines 137-140).  When
treatAsLocalDate is false and the string form of the value matches the
naive timestamp pattern, the source appends a Z marker and the host parses
the string as that UTC instant; this is modelled by returning the parsed
UTC fields when they are in calendar range (out-of-range fields are
normalized or rejected by host-specific rules, modelled as a host-parsed
date).  In every other case the source calls new Date(value) as-is, whose
interpretation is left to the host. -/
def formatFromTimeStamp (value : JSVal) (treatAsLocalDate : Bool) : JSDate :=
  match treatAsLocalDate, tsMatchL (jsToString value).data with
  | false, some (y, oH, d, h, mi, s, f) =>
    if 1 ≤ oH ∧ oH ≤ 12 ∧ 1 ≤ d ∧ d ≤ daysInMonth y oH ∧ h ≤ 23 ∧ mi ≤ 59 ∧ s ≤ 59 then
      .fromUTCFields ⟨y, oH - 1, d, h, mi, s, f⟩
    else .hostParsed (jsToString value ++ "Z")
  | _, _ => jsNewDate value

/-- The two date-related configuration knobs (formatOptions). -/
structure FormatOptions where
  deserializeDate : Bool
  treatAsLocalDate : Bool

/-- A wire-shaped parameter as formatType builds it: the name, an optional
typeHint (present exactly when the source got one, since the source guards
on typeHint being non-null), and the value, which is either the tagged
single-key object or the untouched escape-hatch value. -/
structure WireParam where
  name : JSVal
  typeHint : Option String
  value : JSVal

/-- The formatType function (lines 100-113): on the escape hatch (getType
gave JS null) the value is kept as-is; on a tag the value becomes the
single-key tagged object, with true for the isNull tag and the rendered
timestamp for a Date; on JS undefined the source throws the error naming
the parameter.  The computed key falls back to that throw because every tag
string is truthy. -/
def formatType (host : Host) (name value : JSVal) (ty : GetTypeRes) (typeHint : Option String) (fo : FormatOptions) : Except JsError WireParam :=
  match ty with
  | .hatch => .ok ⟨name, typeHint, value⟩
  | .tag t => .ok ⟨name, typeHint, .obj [(t,
      if t = "isNull" then .bool true
      else match value with
        | .date d => .str (formatToTimeStamp host d fo.treatAsLocalDate)
        | v => v)]⟩
  | .invalid => .error (.invalidType name)

/-- The formatParam function (line 69). -/
def formatParam (host : Host) (n v : JSVal) (fo : FormatOptions) : Except JsError WireParam :=
  formatType host n v (getType v) (getTypeHint v) fo

/-- The splitParams function (lines 72-73), applied to the already-computed
key list (the source recomputes Object.keys of the same object). -/
def splitParams (keys : List (String × JSVal)) : List JSVal :=
  keys.map (fun kv => JSVal.obj [("name", .str kv.1), ("value", kv.2)])

/-- Whether a value is strictly equal to the string literal "undefined"
(the comparison on lines 46-47): only that exact string primitive is. -/
def isStringUndefinedLit : JSVal → Bool
  | .str s => s = "undefined"
  | _ => false

mutual

/-- The normalizeParams function (lines 43-50), with the per-element body
of its reduce split into normalizeOne: each element contributes a segment
that is appended in order. -/
def normalizeParams : List JSVal → Except JsError (List JSVal)
  | [] => .ok []
  | p :: rest => do
    let hd ← normalizeOne p
    let tail ← normalizeParams rest
    .ok (hd ++ tail)

/-- One element of the normalizeParams reduce: an array recurses one level
and stays nested as a single element; a value whose key count is 2 with a
truthy name property and a value property not strictly equal to the string
"undefined", or key count 3 with additionally a truthy cast property, is
kept as-is; anything else is split into one name/value object per own
key. -/
def normalizeOne : JSVal → Except JsError (List JSVal)
  | .arr es => do
    let inner ← normalizeParams es
    .ok [.arr inner]
  | p => do
    let keys ← jsKeys p
    if (keys.length = 2 ∧ jsTruthy (jsGet p "name") = true ∧ isStringUndefinedLit (jsGet p "value") = false)
        ∨ (keys.length = 3 ∧ jsTruthy (jsGet p "name") = true ∧ isStringUndefinedLit (jsGet p "value") = false ∧ jsTruthy (jsGet p "cast") = true) then
      .ok [p]
    else
      .ok (splitParams keys)

end

/-- A processed parameter: a wire parameter, or a nested parameter set
coming from a batch array. -/
inductive PP where
  | p (w : WireParam)
  | set (ws : List PP)

mutual

/-- The processParams function (lines 53-66), with the per-element body of
its reduce split into processOne.  The row counter in the source gates
nothing observable and is omitted. -/
def processParams (host : Host) (engine : String) (fo : FormatOptions) : List JSVal → Except JsError (List PP)
  | [] => .ok []
  | p :: rest => do
    let hd ← processOne host engine fo p
    let tail ← processParams host engine fo rest
    .ok (hd :: tail)

/-- One element of the processParams reduce: an array recurses and stays
nested, any other entry is formatted via formatParam on its name and value
properties. -/
def processOne (host : Host) (engine : String) (fo : FormatOptions) : JSVal → Except JsError PP
  | .arr es => do
    let inner ← processParams host engine fo es
    .ok (.set inner)
  | p => do
    let w ← formatParam host (jsGet p "name") (jsGet p "value") fo
    .ok (.p w)

end

/-- The parseParams function (lines 33-40) on the two positions it reads:
the parameters property of the first argument, and the second argument
(always undefined on the formatParameters path).  Branches in source
order: an array is taken as-is; a typeof-object value (including null) is
wrapped in a singleton list; then the same two checks on the second
argument; then a truthy first value throws, a truthy second value throws,
and anything falsy yields the empty list. -/
def parseParams : JSVal → JSVal → Except JsError (List JSVal)
  | .arr es, _ => .ok es
  | p, arg1 =>
    if jsTypeofIsObject p then .ok [p]
    else match arg1 with
      | .arr es1 => .ok es1
      | a =>
        if jsTypeofIsObject a then .ok [a]
        else if jsTruthy p then .error .paramsFieldNotObjectOrArray
        else if jsTruthy a then .error .paramsNotObjectOrArray
        else .ok []

/-- The per-instance configuration assembled by init (lines 246-265). -/
structure Config where
  engine : String
  hydrateColumnNames : Bool
  formatOptions : FormatOptions

/-- The public formatParameters method (line 271): it calls parseParams on
a singleton argument list carrying the parameters, so the second parseParams
position is undefined, then normalizes and processes, returning the
processedParams projection. -/
def formatParameters (host : Host) (cfg : Config) (params : JSVal) : Except JsError (List PP) := do
  let raw ← parseParams params .undefined
  let norm ← normalizeParams raw
  processParams host cfg.engine cfg.formatOptions norm

/-- Column metadata as supplied alongside a result set. -/
structure ColumnMeta where
  label : String
  typeName : String

/-- A raw field of a result row: its own enumerable properties in order
(a tagged value, possibly with an isNull sibling). -/
abbrev RawField := List (String × JSVal)

/-- Property access on a raw field; absent keys read as undefined. -/
def fieldGet (f : RawField) (k : String) : JSVal :=
  (f.lookup k).getD .undefined

/-- The check field.isNull === true (line 182): the isNull property must be
present and be the boolean true. -/
def isNullMarked (f : RawField) : Bool :=
  match f.lookup "isNull" with
  | some (.bool true) => true
  | _ => false

/-- One entry of the per-call field map fmap (lines 170-173): the column
label and typeName copied from metadata when present, and the lazily
discovered tag name. -/
structure FMapEntry where
  label : Option String
  typeName : Option String
  field : Option String

/-- Truthiness of the memoized tag in the check fmap[i].field (line 188):
present and a non-empty string. -/
def fieldNameTruthy : Option String → Bool
  | some t => t ≠ ""
  | none => false

/-- The discovery loop (lines 198-202): walk the field keys in order and
record each key that is not isNull and whose value is not null; the last
such key wins, starting from the current memoized value. -/
def discover (f : RawField) (init : Option String) : Option String :=
  f.foldl (fun cur kv =>
    if kv.1 = "isNull" then cur
    else match kv.2 with
      | .null => cur
      | _ => some kv.1) init

/-- The column type names that trigger date deserialization (line 217). -/
def dateTypeNames : List String :=
  ["DATE", "DATETIME", "TIMESTAMP", "TIMESTAMP WITH TIME ZONE"]

/-- Membership of a (possibly absent) typeName in dateTypeNames. -/
def typeNameIsDateType : Option String → Bool
  | some s => dateTypeNames.contains s
  | none => false

/-- The formatRecordValue function (lines 216-219): when deserializeDate is
set and the column typeName is a date type, the value goes through
formatFromTimeStamp, with local interpretation forced for the type
TIMESTAMP WITH TIME ZONE; otherwise the value passes unchanged.  The
condition tests only the typeName, never the runtime type of the value. -/
def formatRecordValue (value : JSVal) (typeName : Option String) (fo : FormatOptions) : JSVal :=
  if fo.deserializeDate && typeNameIsDateType typeName then
    .date (formatFromTimeStamp value (fo.treatAsLocalDate || typeName == some "TIMESTAMP WITH TIME ZONE"))
  else value

/-- fmap entry at a column index.  An index beyond the first row (a later
row longer than the first) makes the source throw on the discovery
assignment; the theorems below assume equal-length rows, and the model
reads a fresh empty entry there (never persisted, since List.set out of
range is the identity). -/
def entryAt (fmap : List FMapEntry) (i : Nat) : FMapEntry :=
  fmap.getD i ⟨none, none, none⟩

/-- The body of the per-row reduce of formatRecords (lines 179-209),
processing the fields of one row left to right from column index i,
threading the mutable fmap and emitting one (label, value) pair per field:
an isNull-marked field yields null before any discovery; otherwise a
memoized truthy tag is reused; otherwise the tag is discovered from this
field, memoized, and used (an undiscovered tag reads as undefined). -/
def processFields (fo : FormatOptions) (fmap : List FMapEntry) (i : Nat) : List RawField → List FMapEntry × List (Option String × JSVal)
  | [] => (fmap, [])
  | field :: rest =>
    let e := entryAt fmap i
    if isNullMarked field then
      let pr := processFields fo fmap (i + 1) rest
      (pr.1, (e.label, JSVal.null) :: pr.2)
    else if fieldNameTruthy e.field then
      let v := formatRecordValue (fieldGet field (e.field.getD "")) e.typeName fo
      let pr := processFields fo fmap (i + 1) rest
      (pr.1, (e.label, v) :: pr.2)
    else
      let t2 := discover field e.field
      let fmap2 := fmap.set i { e with field := t2 }
      let v := formatRecordValue (match t2 with | some t => fieldGet field t | none => .undefined) e.typeName fo
      let pr := processFields fo fmap2 (i + 1) rest
      (pr.1, (e.label, v) :: pr.2)

/-- Merge one property into a row object as Object.assign does: an existing
key keeps its position and takes the new value, a new key is appended. -/
def objAssign (acc : List (String × JSVal)) (k : String) (v : JSVal) : List (String × JSVal) :=
  if acc.any (fun kv => kv.1 = k) then acc.map (fun kv => if kv.1 = k then (k, v) else kv)
  else acc ++ [(k, v)]

/-- Assemble one projected row from the emitted (label, value) pairs: a
label-keyed object in hydrated mode (an absent label coerces to the
property key "undefined", and later duplicate labels overwrite earlier
ones), an ordered array otherwise. -/
def assembleRow (hydrate : Bool) (pairs : List (Option String × JSVal)) : JSVal :=
  if hydrate then
    .obj (pairs.foldl (fun acc pv => objAssign acc (pv.1.getD "undefined") pv.2) [])
  else
    .arr (pairs.map (fun pv => pv.2))

/-- The outer row map of formatRecords (line 176): rows processed in order,
each row seeing the fmap state left by the previous rows. -/
def processRows (fo : FormatOptions) (hydrate : Bool) : List FMapEntry → List (List RawField) → List JSVal
  | _, [] => []
  | fmap, row :: rest =>
    let pr := processFields fo fmap 0 row
    assembleRow hydrate pr.2 :: processRows fo hydrate pr.1 rest

/-- The fmap initialization (lines 170-173): one entry per field of the
first row, with label and typeName copied from the column metadata when
supplied.  Metadata shorter than the first row makes the source throw;
well-formed inputs (assumed in the theorems) have metadata covering every
column, modelled by a default entry. -/
def initFmap (columns : Option (List ColumnMeta)) (n : Nat) : List FMapEntry :=
  (List.range n).map (fun i =>
    match columns with
    | some cs => ⟨some ((cs.getD i ⟨"", ""⟩).label), some ((cs.getD i ⟨"", ""⟩).typeName), none⟩
    | none => ⟨none, none, none⟩)

/-- The formatRecords function (lines 167-213) for a present records value;
the guard for an absent or empty records value returns the empty list. -/
def formatRecords (recs : List (List RawField)) (columns : Option (List ColumnMeta)) (hydrate : Bool) (fo : FormatOptions) : List JSVal :=
  match recs with
  | [] => []
  | r0 :: _ => processRows fo hydrate (initFmap columns r0.length) recs

/-- One element of a batch updateResults payload. -/
structure UpdateResult where
  generatedFields : Option (List RawField)

/-- The formatUpdateResults function (lines 222-225): per element, the
first generated field read at key longValue when generatedFields is a
non-empty array, else an empty object (modelled as none). -/
def formatUpdateResults (res : List UpdateResult) : List (Option JSVal) :=
  res.map (fun x => match x.generatedFields with
    | some (g0 :: _) => some (fieldGet g0 "longValue")
    | _ => none)

/-- A raw Data API payload as formatResults destructures it (lines
144-150).  Absent keys are none.  Every list-valued key is an array when
present, and arrays (including empty ones) are truthy in JS, so presence
models the source truthiness checks exactly; numberOfRecordsUpdated is
compared against undefined only. -/
structure RawPayload where
  columnMetadata : Option (List ColumnMeta)
  numberOfRecordsUpdated : Option JSVal
  records : Option (List (List RawField))
  generatedFields : Option (List RawField)
  updateResults : Option (List UpdateResult)

/-- The assembled response object: a key is present exactly when its
Object.assign contribution was non-empty. -/
structure AssembledResponse where
  columnMetadata : Option (List ColumnMeta)
  numberOfRecordsUpdated : Option JSVal
  records : Option (List JSVal)
  updateResults : Option (List (Option JSVal))
  insertId : Option JSVal

/-- The formatResults function (lines 143-163): metadata when includeMeta
is truthy, the update count when defined and no records key is present,
projected records when records is present, update results when present,
and an insertId from the first generated field when generatedFields is a
non-empty array. -/
def formatResults (r : RawPayload) (hydrate : Bool) (includeMeta : Option (List ColumnMeta)) (fo : FormatOptions) : AssembledResponse where
  columnMetadata := if includeMeta.isSome then r.columnMetadata else none
  numberOfRecordsUpdated := if r.numberOfRecordsUpdated.isSome ∧ r.records.isNone then r.numberOfRecordsUpdated else none
  records := r.records.map (fun recs => formatRecords recs r.columnMetadata hydrate fo)
  updateResults := r.updateResults.map formatUpdateResults
  insertId := match r.generatedFields with
    | some (g0 :: _) => some (fieldGet g0 "longValue")
    | _ => none

/-- The public formatResponse method (line 274): formatResults applied to
the payload, the configured hydration flag, the payload columnMetadata
itself as the metadata-inclusion condition, and the configured format
options. -/
def formatResponse (cfg : Config) (r : RawPayload) : AssembledResponse :=
  formatResults r cfg.hydrateColumnNames r.columnMetadata cfg.formatOptions

/-- The configuration init builds from empty params (lines 246-265):
engine mysql, hydrateColumnNames true, deserializeDate true (the code
defaults it to true, line 260), treatAsLocalDate false. -/
def defaultConfig : Config :=
  ⟨"mysql", true, ⟨true, false⟩⟩

/-- The JS object a WireParam denotes, keys in the assembly order of
formatType: name, then typeHint when present, then value. -/
def wireParamToJSVal (w : WireParam) : JSVal :=
  .obj ([("name", w.name)] ++
    (match w.typeHint with | some h => [("typeHint", JSVal.str h)] | none => []) ++
    [("value", w.value)])

/-- jsTrunc fixes exactly the integers: truncation toward zero returns the
argument precisely when the denominator is one. -/
theorem jsTrunc_eq_self_iff (q : ℚ) : jsTrunc q = q ↔ q.den = 1 := by
  constructor
  · intro h
    unfold jsTrunc at h
    split at h
    · rw [← h]; exact Rat.den_intCast _
    · rw [← h]; exact Rat.den_intCast _
  · intro h
    have hq : (q.num : ℚ) = q := (Rat.den_eq_one_iff q).1 h
    unfold jsTrunc
    split
    · rw [← hq, Int.floor_intCast]
    · rw [← hq, Int.ceil_intCast]

/-- A signed mantissa digit is an integer: its denominator is one. -/
theorem signedDigit_den (q : ℚ) (d : Nat) : (signedDigit q d).den = 1 := by
  unfold signedDigit
  split
  · rw [Rat.neg_den]
    exact Rat.den_natCast d
  · exact Rat.den_natCast d

/-- The significant-digit scan of a zero numerator yields zero. -/
theorem firstSigDigitAux_zero : ∀ (fuel den : Nat), firstSigDigitAux fuel 0 den = 0 := by
  intro fuel
  induction fuel with
  | zero => intro den; rfl
  | succ fuel ih => intro den; simp [firstSigDigitAux, ih]

/-- C1: for a numeric parameter value, getType yields longValue exactly
when the parseInt of the value is strictly equal to it, else doubleValue
when the parseFloat is strictly equal to it.  On the plain-decimal domain
(magnitude below 1e21) this means integers (denominator one) are longValue
and all other finite numbers are doubleValue; at 1e21 and beyond the
rendering is exponential, the parseInt is the leading mantissa digit, and
even the integral value 1e21 is tagged doubleValue.  In particular
formatParameters tags the value 5 (which is also the JS value written 5.0)
as longValue and the value 5.5 as doubleValue. -/
theorem claimC1_type_inference_precedence :
    (∀ n : JSNum, jsStrictEqNum (parseIntOfNum n) n = true → getType (.num n) = .tag "longValue") ∧
    (∀ n : JSNum, jsStrictEqNum (parseIntOfNum n) n = false →
      jsStrictEqNum (parseFloatOfNum n) n = true → getType (.num n) = .tag "doubleValue") ∧
    (∀ q : ℚ, q.num.natAbs < 10 ^ 21 * q.den →
      getType (.num (.rat q)) = .tag (if q.den = 1 then "longValue" else "doubleValue")) ∧
    (getType (.num (.rat 1000000000000000000000)) = .tag "doubleValue") ∧
    (∀ (host : Host) (cfg : Config),
      formatParameters host cfg (.obj [("p", .num (.rat 5))]) =
        .ok [.p ⟨.str "p", none, .obj [("longValue", .num (.rat 5))]⟩] ∧
      formatParameters host cfg (.obj [("p", .num (.rat (Rat.divInt 11 2)))]) =
        .ok [.p ⟨.str "p", none, .obj [("doubleValue", .num (.rat (Rat.divInt 11 2)))]⟩]) := by
  refine ⟨?_, ?_, ?_, ?_, ?_⟩
  · intro n h
    simp [getType, h]
  · intro n h1 h2
    simp [getType, h1, h2]
  · intro q hq
    have hbig : ¬ 10 ^ 21 * q.den ≤ q.num.natAbs := not_le.mpr hq
    have hfloat : jsStrictEqNum (parseFloatOfNum (.rat q)) (.rat q) = true := by
      simp [parseFloatOfNum, jsStrictEqNum]
    by_cases hsmall : q.num.natAbs * 10 ^ 6 < q.den
    · by_cases hz : q.num = 0
      · have hq0 : q = 0 := Rat.num_eq_zero.mp hz
        subst hq0
        have hpi : parseIntOfNum (.rat 0) = .rat 0 := by
          show (if 10 ^ 21 * (0 : ℚ).den ≤ (0 : ℚ).num.natAbs then
              JSNum.rat (signedDigit 0 (leadingDigit ((0 : ℚ).num.natAbs / (0 : ℚ).den)))
            else if (0 : ℚ).num.natAbs * 10 ^ 6 < (0 : ℚ).den then
              JSNum.rat (signedDigit 0 (firstSigDigitAux 1100 (0 : ℚ).num.natAbs (0 : ℚ).den))
            else JSNum.rat (jsTrunc 0)) = JSNum.rat 0
          rw [if_neg (by decide), if_pos (by decide)]
          norm_num [signedDigit, firstSigDigitAux_zero, Rat.num_zero, Rat.den_zero]
        simp [getType, hpi, jsStrictEqNum, Rat.den_zero]
      · have hp6 : (10 : ℕ) ^ 6 = 1000000 := by norm_num
        have hden : q.den ≠ 1 := by
          intro h1
          rw [h1, hp6] at hsmall
          have h0 : q.num.natAbs = 0 := by omega
          exact hz (Int.natAbs_eq_zero.mp h0)
        have hpi : parseIntOfNum (.rat q) =
            .rat (signedDigit q (firstSigDigitAux 1100 q.num.natAbs q.den)) := by
          show (if 10 ^ 21 * q.den ≤ q.num.natAbs then
              JSNum.rat (signedDigit q (leadingDigit (q.num.natAbs / q.den)))
            else if q.num.natAbs * 10 ^ 6 < q.den then
              JSNum.rat (signedDigit q (firstSigDigitAux 1100 q.num.natAbs q.den))
            else JSNum.rat (jsTrunc q)) = _
          rw [if_neg hbig, if_pos hsmall]
        have hne : signedDigit q (firstSigDigitAux 1100 q.num.natAbs q.den) ≠ q := by
          intro heq
          exact hden (by rw [← heq]; exact signedDigit_den q _)
        have hguard : jsStrictEqNum (parseIntOfNum (.rat q)) (.rat q) = false := by
          rw [hpi]
          simp [jsStrictEqNum, hne]
        simp [getType, hguard, hfloat, hden]
    · have hpi : parseIntOfNum (.rat q) = .rat (jsTrunc q) := by
        show (if 10 ^ 21 * q.den ≤ q.num.natAbs then
            JSNum.rat (signedDigit q (leadingDigit (q.num.natAbs / q.den)))
          else if q.num.natAbs * 10 ^ 6 < q.den then
            JSNum.rat (signedDigit q (firstSigDigitAux 1100 q.num.natAbs q.den))
          else JSNum.rat (jsTrunc q)) = _
        rw [if_neg hbig, if_neg hsmall]
      by_cases h : q.den = 1
      · have ht : jsTrunc q = q := (jsTrunc_eq_self_iff q).2 h
        have hguard : jsStrictEqNum (parseIntOfNum (.rat q)) (.rat q) = true := by
          rw [hpi]
          simp [jsStrictEqNum, ht]
        simp [getType, hguard, h]
      · have ht : ¬ jsTrunc q = q := fun hh => h ((jsTrunc_eq_self_iff q).1 hh)
        have hguard : jsStrictEqNum (parseIntOfNum (.rat q)) (.rat q) = false := by
          rw [hpi]
          simp [jsStrictEqNum, ht]
        simp [getType, hguard, hfloat, h]
  · rfl
  · intro host cfg
    exact ⟨rfl, rfl⟩

/-- Witness for C1 at concrete inputs: the integer 7 passes the strict
parseInt test and is tagged longValue. -/
theorem claimC1_witness :
    jsStrictEqNum (parseIntOfNum (.rat 7)) (.rat 7) = true ∧
      getType (.num (.rat 7)) = .tag "longValue" :=
  ⟨rfl, claimC1_type_inference_precedence.1 (.rat 7) rfl⟩

/-- C2 counterexample: a fully wire-shaped parameter carrying a cast key
does not pass through unchanged; processParams reformats every parameter
through formatType, whose output has only name and value (and possibly
typeHint) keys, so the cast key is dropped. -/
theorem claimC2_cex :
    formatParameters host0 defaultConfig
        (.obj [("name", .str "x"), ("value", .obj [("stringValue", .str "hi")]), ("cast", .str "int")]) =
      .ok [.p ⟨.str "x", none, .obj [("stringValue", .str "hi")]⟩] ∧
    wireParamToJSVal ⟨.str "x", none, .obj [("stringValue", .str "hi")]⟩ ≠
      .obj [("name", .str "x"), ("value", .obj [("stringValue", .str "hi")]), ("cast", .str "int")] := by
  refine ⟨rfl, ?_⟩
  simp [wireParamToJSVal]

/-- C2 as amended: a parameter object with exactly the keys name and value
(name truthy, value a single-key object whose key is a recognized tag)
passes through with its name and value unchanged; when a truthy cast key is
present as a third key the name and value still pass through unchanged but
the cast key is dropped from the output. -/
theorem claimC2_passthrough_amended :
    ∀ (host : Host) (cfg : Config) (n w : JSVal) (t : String) (c : JSVal),
      jsTruthy n = true → supportedTypes.contains t = true → jsTruthy c = true →
      formatParameters host cfg (.obj [("name", n), ("value", .obj [(t, w)])]) =
        .ok [.p ⟨n, none, .obj [(t, w)]⟩] ∧
      formatParameters host cfg (.obj [("name", n), ("value", .obj [(t, w)]), ("cast", c)]) =
        .ok [.p ⟨n, none, .obj [(t, w)]⟩] := by
  intro host cfg n w t c hn ht hc
  have ht2 : t ∈ supportedTypes := by simpa using ht
  constructor <;>
    simp [formatParameters, parseParams, jsTypeofIsObject, normalizeParams, normalizeOne, jsKeys,
      jsGet, List.lookup, hn, hc, isStringUndefinedLit, processParams, processOne, formatParam,
      getType, ht2, getTypeHint, formatType, bind, Except.bind]

/-- Witness for C2 as amended, at a concrete escape-hatch parameter. -/
theorem claimC2_witness :
    formatParameters host0 defaultConfig
        (.obj [("name", .str "x"), ("value", .obj [("stringValue", .str "hi")])]) =
      .ok [.p ⟨.str "x", none, .obj [("stringValue", .str "hi")]⟩] :=
  (claimC2_passthrough_amended host0 defaultConfig (.str "x") (.str "hi") "stringValue"
    (.str "int") rfl rfl rfl).1

/-- C4 counterexample: the boolean false is a supplied argument that is
neither an object nor an array, yet formatParameters does not throw
InvalidParameterShape: being falsy, it falls to the final branch of
parseParams and yields the empty parameter list. -/
theorem claimC4_cex :
    (JSVal.bool false ≠ JSVal.undefined) ∧ jsTypeofIsObject (.bool false) = false ∧
      jsIsArray (.bool false) = false ∧
      formatParameters host0 defaultConfig (.bool false) = .ok [] := by
  exact ⟨fun h => JSVal.noConfusion h, rfl, rfl, rfl⟩

/-- C4 as amended: formatParameters throws the InvalidParameterShape error
for every supplied parameter argument that is truthy and neither an object
nor an array; calling it with nothing (undefined) yields the empty
parameter list, and so does any falsy non-object argument (false, 0, the
empty string, NaN), which parseParams cannot distinguish from an absent
one. -/
theorem claimC4_extraction_amended :
    (∀ (host : Host) (cfg : Config) (v : JSVal),
      jsTruthy v = true → jsTypeofIsObject v = false → jsIsArray v = false →
      formatParameters host cfg v = .error .paramsFieldNotObjectOrArray) ∧
    (∀ (host : Host) (cfg : Config), formatParameters host cfg .undefined = .ok []) ∧
    (∀ (host : Host) (cfg : Config) (v : JSVal),
      jsTruthy v = false → jsTypeofIsObject v = false →
      formatParameters host cfg v = .ok []) := by
  refine ⟨?_, ?_, ?_⟩
  · intro host cfg v h1 h2 h3
    cases v <;>
      simp_all [formatParameters, parseParams, jsTypeofIsObject, jsIsArray, normalizeParams,
        processParams, bind, Except.bind]
  · intro host cfg
    rfl
  · intro host cfg v h1 h2
    cases v <;>
      simp_all [formatParameters, parseParams, jsTypeofIsObject, jsTruthy, normalizeParams,
        processParams, bind, Except.bind]

/-- Witness for C4 as amended: a non-empty string is truthy, not an object
and not an array, and extraction throws InvalidParameterShape on it. -/
theorem claimC4_witness :
    jsTruthy (JSVal.str "oops") = true ∧ jsTypeofIsObject (JSVal.str "oops") = false ∧
      jsIsArray (JSVal.str "oops") = false ∧
      formatParameters host0 defaultConfig (.str "oops") = .error .paramsFieldNotObjectOrArray :=
  ⟨rfl, rfl, rfl, claimC4_extraction_amended.1 host0 defaultConfig (.str "oops") rfl rfl rfl⟩

/-- C5 counterexample: the numeric value Infinity does not fall through to
the UnsupportedType throw: parseFloat of its string rendering is Infinity,
which is strictly equal to it, so it is tagged doubleValue and
formatParameters succeeds. -/
theorem claimC5_cex :
    formatParameters host0 defaultConfig (.obj [("p", .num .posInf)]) =
      .ok [.p ⟨.str "p", none, .obj [("doubleValue", .num .posInf)]⟩] ∧
    ∀ e : JsError, formatParameters host0 defaultConfig (.obj [("p", .num .posInf)]) ≠ .error e := by
  refine ⟨rfl, fun e h => Except.noConfusion h⟩

/-- C5 as amended: NaN matches no type-inference rule and formatParameters
throws the UnsupportedType error naming the offending parameter, but
Infinity (and negative Infinity) is matched by the float-parse rule and is
tagged doubleValue. -/
theorem claimC5_nan_infinity_amended :
    ∀ (host : Host) (cfg : Config) (nm : String),
      formatParameters host cfg (.obj [(nm, .num .nan)]) = .error (.invalidType (.str nm)) ∧
      formatParameters host cfg (.obj [(nm, .num .posInf)]) =
        .ok [.p ⟨.str nm, none, .obj [("doubleValue", .num .posInf)]⟩] ∧
      formatParameters host cfg (.obj [(nm, .num .negInf)]) =
        .ok [.p ⟨.str nm, none, .obj [("doubleValue", .num .negInf)]⟩] ∧
      getType (.num .nan) = .invalid ∧ getType (.num .posInf) = .tag "doubleValue" := by
  intro host cfg nm
  refine ⟨?_, ?_, ?_, rfl, rfl⟩ <;>
    simp [formatParameters, parseParams, jsTypeofIsObject, normalizeParams, normalizeOne, jsKeys,
      jsGet, List.lookup, isStringUndefinedLit, splitParams, processParams, processOne, formatParam,
      getType, getTypeHint, formatType, jsStrictEqNum, parseIntOfNum, parseFloatOfNum, jsTruthy,
      bind, Except.bind]

/-- C6 counterexample: a non-string value under a date-typed column is not
returned unchanged; the value coercer tests only the declared type name, so
the longValue 123 of a DATE column is handed to the timestamp parse (its
string rendering fails the naive pattern, and new Date is applied to the
number itself, giving an epoch date object). -/
theorem claimC6_cex :
    formatRecordValue (.num (.rat 123)) (some "DATE") ⟨true, false⟩ =
      .date (.fromEpoch (.rat 123)) ∧
    JSVal.date (.fromEpoch (.rat 123)) ≠ JSVal.num (.rat 123) :=
  ⟨rfl, fun h => JSVal.noConfusion h⟩

/-- C6 as amended: when date deserialization is enabled and the declared
type name is one of the four date types, the coercer sends the value,
whatever its runtime type, through the timestamp inbound parse, with
TIMESTAMP WITH TIME ZONE forcing local interpretation regardless of the
configured treatAsLocalDate; for every other type name, and whenever
deserialization is disabled, the value passes unchanged. -/
theorem claimC6_value_coercion_amended :
    ∀ (v : JSVal) (t : Option String) (fo : FormatOptions),
      (fo.deserializeDate = true → typeNameIsDateType t = true →
        formatRecordValue v t fo =
          .date (formatFromTimeStamp v (fo.treatAsLocalDate || t == some "TIMESTAMP WITH TIME ZONE"))) ∧
      (typeNameIsDateType t = false → formatRecordValue v t fo = v) ∧
      (fo.deserializeDate = false → formatRecordValue v t fo = v) ∧
      (t = some "TIMESTAMP WITH TIME ZONE" → fo.deserializeDate = true →
        formatRecordValue v t fo = .date (formatFromTimeStamp v true)) := by
  intro v t fo
  refine ⟨fun h1 h2 => ?_, fun h => ?_, fun h => ?_, fun h1 h2 => ?_⟩
  · simp [formatRecordValue, h1, h2]
  · simp [formatRecordValue, h]
  · simp [formatRecordValue, h]
  · subst h1
    simp [formatRecordValue, h2, typeNameIsDateType, dateTypeNames]

/-- Witness for C6 as amended: a DATE-typed string goes through the
timestamp parse under the default options. -/
theorem claimC6_witness :
    formatRecordValue (.str "2020-01-15 12:34:56") (some "DATE") ⟨true, false⟩ =
      .date (formatFromTimeStamp (.str "2020-01-15 12:34:56")
        (false || (some "DATE" : Option String) == some "TIMESTAMP WITH TIME ZONE")) :=
  (claimC6_value_coercion_amended (.str "2020-01-15 12:34:56") (some "DATE") ⟨true, false⟩).1 rfl rfl

/-- C9: the atomic-shape test of the normalizer compares the value against
the string literal "undefined", not the undefined value.  A two-key object
whose value is exactly that string is split into the two string parameters
name and value; a two-key object whose value is actually undefined (with a
non-empty name) is accepted as atomic and then fails type inference with
the UnsupportedType error naming the parameter. -/
theorem claimC9_undefined_literal :
    ∀ (host : Host) (cfg : Config) (n : String),
      formatParameters host cfg (.obj [("name", .str n), ("value", .str "undefined")]) =
        .ok [.p ⟨.str "name", none, .obj [("stringValue", .str n)]⟩,
             .p ⟨.str "value", none, .obj [("stringValue", .str "undefined")]⟩] ∧
      (n ≠ "" →
        formatParameters host cfg (.obj [("name", .str n), ("value", .undefined)]) =
          .error (.invalidType (.str n))) := by
  intro host cfg n
  constructor
  · simp [formatParameters, parseParams, jsTypeofIsObject, normalizeParams, normalizeOne, jsKeys,
      jsGet, List.lookup, isStringUndefinedLit, splitParams, processParams, processOne, formatParam,
      getType, getTypeHint, formatType, bind, Except.bind]
  · intro hn
    simp [formatParameters, parseParams, jsTypeofIsObject, normalizeParams, normalizeOne, jsKeys,
      jsGet, List.lookup, isStringUndefinedLit, splitParams, processParams, processOne, formatParam,
      getType, getTypeHint, formatType, jsTruthy, hn, bind, Except.bind]

/-- Witness for C9 at the parameter name x. -/
theorem claimC9_witness :
    ("x" : String) ≠ "" ∧
      formatParameters host0 defaultConfig (.obj [("name", .str "x"), ("value", .undefined)]) =
        .error (.invalidType (.str "x")) :=
  ⟨by decide, (claimC9_undefined_literal host0 defaultConfig "x").2 (by decide)⟩

/-- C8: formatResponse includes exactly the output keys whose source data
exists.  A payload carrying only an update count of 3 assembles to exactly
that key; the update count is omitted whenever a records key is present;
and each output key is present exactly when its source is (records,
updateResults, metadata by presence; insertId by a non-empty
generatedFields array), so no key carries a placeholder for data that was
not returned. -/
theorem claimC8_response_keys :
    (∀ cfg : Config,
      formatResponse cfg ⟨none, some (.num (.rat 3)), none, none, none⟩ =
        ⟨none, some (.num (.rat 3)), none, none, none⟩) ∧
    (∀ (cfg : Config) (r : RawPayload),
      (formatResponse cfg r).columnMetadata = r.columnMetadata ∧
      (formatResponse cfg r).numberOfRecordsUpdated.isSome =
        (r.numberOfRecordsUpdated.isSome && r.records.isNone) ∧
      ((formatResponse cfg r).numberOfRecordsUpdated.isSome = true →
        (formatResponse cfg r).numberOfRecordsUpdated = r.numberOfRecordsUpdated) ∧
      (formatResponse cfg r).records.isSome = r.records.isSome ∧
      (formatResponse cfg r).updateResults.isSome = r.updateResults.isSome ∧
      (formatResponse cfg r).insertId.isSome = !(r.generatedFields.getD []).isEmpty) := by
  refine ⟨fun cfg => rfl, fun cfg r => ?_⟩
  obtain ⟨cm, nru, recs, gf, ur⟩ := r
  refine ⟨?_, ?_, ?_, ?_, ?_, ?_⟩
  · cases cm <;> rfl
  · cases nru <;> cases recs <;> simp [formatResponse, formatResults]
  · cases nru <;> cases recs <;> simp [formatResponse, formatResults]
  · cases recs <;> simp [formatResponse, formatResults]
  · cases ur <;> simp [formatResponse, formatResults]
  · cases gf with
    | none => simp [formatResponse, formatResults]
    | some l => cases l <;> simp [formatResponse, formatResults]

/-- Witness for C8 (its only hypothesis is the inner implication about the
update count): on the concrete update-only payload the count is present and
passed through. -/
theorem claimC8_witness :
    (formatResponse defaultConfig ⟨none, some (.num (.rat 3)), none, none, none⟩).numberOfRecordsUpdated =
      (⟨none, some (.num (.rat 3)), none, none, none⟩ : RawPayload).numberOfRecordsUpdated :=
  (claimC8_response_keys.2 defaultConfig ⟨none, some (.num (.rat 3)), none, none, none⟩).2.2.1 rfl

/-- C10: formatResponse decides metadata inclusion solely from the payload:
the output carries the columnMetadata key exactly when the payload has one
(arrays, the only well-formed metadata values, are truthy), it is passed
through unchanged, and no configuration affects it. -/
theorem claimC10_metadata_passthrough :
    ∀ (cfg cfg2 : Config) (r : RawPayload),
      (formatResponse cfg r).columnMetadata = r.columnMetadata ∧
      (formatResponse cfg r).columnMetadata.isSome = r.columnMetadata.isSome ∧
      (formatResponse cfg r).columnMetadata = (formatResponse cfg2 r).columnMetadata := by
  intro cfg cfg2 r
  obtain ⟨cm, nru, recs, gf, ur⟩ := r
  cases cm <;> exact ⟨rfl, rfl, rfl⟩

/-- How one field updates its column entry in fmap: an isNull-marked field
leaves it untouched, a truthy memoized tag is kept, and otherwise the tag
is discovered from the field. -/
def entryStep (f : RawField) (e : FMapEntry) : FMapEntry :=
  if isNullMarked f then e
  else if fieldNameTruthy e.field then e
  else { e with field := discover f e.field }

/-- processFields emits exactly one (label, value) pair per field. -/
theorem processFields_snd_length (fo : FormatOptions) (fmap : List FMapEntry) (i : Nat)
    (flds : List RawField) : (processFields fo fmap i flds).2.length = flds.length := by
  induction flds generalizing fmap i with
  | nil => rfl
  | cons f rest ih =>
    by_cases hN : isNullMarked f = true
    · simp [processFields, hN, ih]
    · by_cases hT : fieldNameTruthy (entryAt fmap i).field = true
      · simp [processFields, hN, hT, ih]
      · simp [processFields, hN, hT, ih]

/-- processFields never touches fmap entries below its starting column. -/
theorem processFields_fst_lt (fo : FormatOptions) (fmap : List FMapEntry) (i : Nat)
    (flds : List RawField) (k : Nat) (hk : k < i) :
    (processFields fo fmap i flds).1[k]? = fmap[k]? := by
  induction flds generalizing fmap i with
  | nil => rfl
  | cons f rest ih =>
    by_cases hN : isNullMarked f = true
    · simpa [processFields, hN] using ih fmap (i + 1) (Nat.lt_succ_of_lt hk)
    · by_cases hT : fieldNameTruthy (entryAt fmap i).field = true
      · simpa [processFields, hN, hT] using ih fmap (i + 1) (Nat.lt_succ_of_lt hk)
      · have hne : i ≠ k := fun h => absurd (h ▸ hk) (Nat.lt_irrefl i)
        have := ih (fmap.set i { entryAt fmap i with field := discover f (entryAt fmap i).field })
          (i + 1) (Nat.lt_succ_of_lt hk)
        simpa [processFields, hN, hT, List.getElem?_set_ne hne] using this

/-- The fmap entry of each processed column is transformed by exactly its
own field via entryStep: tags are discovered at the first opportunity and
kept thereafter. -/
theorem processFields_fst_get (fo : FormatOptions) (fmap : List FMapEntry) (i : Nat)
    (flds : List RawField) (j : Nat) (f : RawField) (hj : flds[j]? = some f) :
    (processFields fo fmap i flds).1[i + j]? = (fmap[i + j]?).map (entryStep f) := by
  induction flds generalizing fmap i j with
  | nil => simp at hj
  | cons g rest ih =>
    cases j with
    | zero =>
      have hg : g = f := by simpa using hj
      subst hg
      by_cases hN : isNullMarked g = true
      · have hpre := processFields_fst_lt fo fmap (i + 1) rest i (Nat.lt_succ_self i)
        cases hfm : fmap[i]? with
        | none => simp [processFields, hN, hpre, hfm]
        | some e => simp [processFields, hN, hpre, hfm, entryStep]
      · by_cases hT : fieldNameTruthy (entryAt fmap i).field = true
        · have hpre := processFields_fst_lt fo fmap (i + 1) rest i (Nat.lt_succ_self i)
          cases hfm : fmap[i]? with
          | none =>
            exfalso
            simp [entryAt, hfm, fieldNameTruthy] at hT
          | some e =>
            have heA : entryAt fmap i = e := by simp [entryAt, hfm]
            rw [heA] at hT
            simp [processFields, hN, hT, heA, hpre, hfm, entryStep]
        · cases hfm : fmap[i]? with
          | none =>
            have heA : entryAt fmap i = ⟨none, none, none⟩ := by simp [entryAt, hfm]
            rw [heA] at hT
            have hlen : fmap.length ≤ i := by
              by_contra hlt
              rw [List.getElem?_eq_getElem (Nat.lt_of_not_le hlt)] at hfm
              exact Option.noConfusion hfm
            have hX : fmap.set i ⟨(none : Option String), none, discover g none⟩ = fmap :=
              List.set_eq_of_length_le hlen
            have hpre := processFields_fst_lt fo fmap (i + 1) rest i (Nat.lt_succ_self i)
            simp [processFields, hN, hT, heA, hX, hpre, hfm]
          | some e =>
            have heA : entryAt fmap i = e := by simp [entryAt, hfm]
            rw [heA] at hT
            have hlt : i < fmap.length := by
              by_contra hge
              rw [List.getElem?_eq_none (Nat.le_of_not_lt hge)] at hfm
              exact Option.noConfusion hfm
            have hset : (fmap.set i ⟨e.label, e.typeName, discover g e.field⟩)[i]? =
                some ⟨e.label, e.typeName, discover g e.field⟩ :=
              List.getElem?_set_eq_of_lt _ (by simpa using hlt)
            have hpre := processFields_fst_lt fo
              (fmap.set i ⟨e.label, e.typeName, discover g e.field⟩)
              (i + 1) rest i (Nat.lt_succ_self i)
            rw [hset] at hpre
            simp [processFields, hN, hT, heA, hpre, hfm, entryStep]
    | succ j2 =>
      have hj2 : rest[j2]? = some f := by simpa using hj
      have harith : i + (j2 + 1) = (i + 1) + j2 := by omega
      by_cases hN : isNullMarked g = true
      · have := ih fmap (i + 1) j2 hj2
        simpa [processFields, hN, harith] using this
      · by_cases hT : fieldNameTruthy (entryAt fmap i).field = true
        · have := ih fmap (i + 1) j2 hj2
          simpa [processFields, hN, hT, harith] using this
        · have hne : i ≠ (i + 1) + j2 := by omega
          have := ih (fmap.set i { entryAt fmap i with field := discover g (entryAt fmap i).field })
            (i + 1) j2 hj2
          rw [List.getElem?_set_ne hne] at this
          simpa [processFields, hN, hT, harith] using this

/-- An isNull-marked field always projects to null, before any tag
discovery or lookup. -/
theorem processFields_snd_null (fo : FormatOptions) (fmap : List FMapEntry) (i : Nat)
    (flds : List RawField) (j : Nat) (f : RawField)
    (hj : flds[j]? = some f) (hN : isNullMarked f = true) :
    ((processFields fo fmap i flds).2.map Prod.snd)[j]? = some JSVal.null := by
  induction flds generalizing fmap i j with
  | nil => simp at hj
  | cons g rest ih =>
    cases j with
    | zero =>
      have hg : g = f := by simpa using hj
      subst hg
      simp [processFields, hN]
    | succ j2 =>
      have hj2 : rest[j2]? = some f := by simpa using hj
      by_cases hNg : isNullMarked g = true
      · simpa [processFields, hNg] using ih fmap (i + 1) j2 hj2
      · by_cases hT : fieldNameTruthy (entryAt fmap i).field = true
        · simpa [processFields, hNg, hT] using ih fmap (i + 1) j2 hj2
        · simpa [processFields, hNg, hT] using
            ih (fmap.set i ⟨(entryAt fmap i).label, (entryAt fmap i).typeName,
              discover g (entryAt fmap i).field⟩) (i + 1) j2 hj2

/-- A column whose entry already memoizes a truthy tag is unwrapped with
that remembered tag (the field is not rediscovered). -/
theorem processFields_snd_memoized (fo : FormatOptions) (t : String) (f : RawField)
    (e : FMapEntry) (hN : isNullMarked f = false) (ht : e.field = some t)
    (htr : fieldNameTruthy e.field = true) :
    ∀ (flds : List RawField) (fmap : List FMapEntry) (i j : Nat),
      flds[j]? = some f → fmap[i + j]? = some e →
      ((processFields fo fmap i flds).2.map Prod.snd)[j]? =
        some (formatRecordValue (fieldGet f t) e.typeName fo) := by
  intro flds
  induction flds with
  | nil => intro fmap i j hj he; simp at hj
  | cons g rest ih =>
    intro fmap i j hj he
    cases j with
    | zero =>
      have hg : g = f := by simpa using hj
      subst hg
      have he0 : fmap[i]? = some e := by simpa using he
      have heA : entryAt fmap i = e := by simp [entryAt, he0]
      have htr2 : fieldNameTruthy (some t) = true := by rw [← ht]; exact htr
      simp [processFields, hN, heA, ht, htr2]
    | succ j2 =>
      have hj2 : rest[j2]? = some f := by simpa using hj
      have he2 : fmap[(i + 1) + j2]? = some e := by
        rw [show (i + 1) + j2 = i + (j2 + 1) by omega]
        exact he
      by_cases hNg : isNullMarked g = true
      · simpa [processFields, hNg] using ih fmap (i + 1) j2 hj2 he2
      · by_cases hT : fieldNameTruthy (entryAt fmap i).field = true
        · simpa [processFields, hNg, hT] using ih fmap (i + 1) j2 hj2 he2
        · have he3 : (fmap.set i ⟨(entryAt fmap i).label, (entryAt fmap i).typeName,
              discover g (entryAt fmap i).field⟩)[(i + 1) + j2]? = some e := by
            rw [List.getElem?_set_ne (by omega)]
            exact he2
          simpa [processFields, hNg, hT] using
            ih (fmap.set i ⟨(entryAt fmap i).label, (entryAt fmap i).typeName,
              discover g (entryAt fmap i).field⟩) (i + 1) j2 hj2 he3

/-- Row-level null precedence in positional mode: the projected row is an
array carrying null at every isNull-marked position, whatever fmap state
the earlier rows left. -/
theorem processRows_positional_null (fo : FormatOptions) :
    ∀ (rows : List (List RawField)) (fmap : List FMapEntry) (r j : Nat)
      (row : List RawField) (f : RawField),
      rows[r]? = some row → row[j]? = some f → isNullMarked f = true →
      ∃ vs, (processRows fo false fmap rows)[r]? = some (JSVal.arr vs) ∧
        vs[j]? = some JSVal.null := by
  intro rows
  induction rows with
  | nil => intro fmap r j row f hr; simp at hr
  | cons row0 rest ih =>
    intro fmap r j row f hr hj hN
    cases r with
    | zero =>
      have h0 : row0 = row := by simpa using hr
      subst h0
      refine ⟨(processFields fo fmap 0 row0).2.map Prod.snd, ?_, ?_⟩
      · simp [processRows, assembleRow]
      · exact processFields_snd_null fo fmap 0 row0 j f hj hN
    | succ r2 =>
      have hr2 : rest[r2]? = some row := by simpa using hr
      simpa [processRows] using ih (processFields fo fmap 0 row0).1 r2 j row f hr2 hj hN

/-- C3: the wire tag of each column is discovered lazily and memoized in
the per-call fmap, and an explicit isNull marker always projects to null,
taking precedence over discovery.  Conjuncts: the concrete two-row example
(first row has column 2 null, second row has column 2 tagged stringValue x,
and the projected rows report null then x while the other columns keep
their values); null precedence at any position of any row; reuse of a
memoized truthy tag to unwrap a non-null field; and the fmap entry of each
column being transformed by exactly its own field via entryStep (no
discovery when marked null or already memoized, discovery otherwise). -/
theorem claimC3_field_type_memoization :
    (formatRecords
        [[[("longValue", .num (.rat 1))], [("stringValue", .str "a")], [("isNull", .bool true)]],
         [[("longValue", .num (.rat 2))], [("stringValue", .str "b")], [("stringValue", .str "x")]]]
        (some [⟨"id", "INT"⟩, ⟨"a", "VARCHAR"⟩, ⟨"c2", "VARCHAR"⟩]) false ⟨true, false⟩ =
      [.arr [.num (.rat 1), .str "a", JSVal.null],
       .arr [.num (.rat 2), .str "b", .str "x"]]) ∧
    (∀ (fo : FormatOptions) (rows : List (List RawField)) (fmap : List FMapEntry) (r j : Nat)
        (row : List RawField) (f : RawField),
      rows[r]? = some row → row[j]? = some f → isNullMarked f = true →
      ∃ vs, (processRows fo false fmap rows)[r]? = some (JSVal.arr vs) ∧
        vs[j]? = some JSVal.null) ∧
    (∀ (fo : FormatOptions) (t : String) (f : RawField) (e : FMapEntry),
      isNullMarked f = false → e.field = some t → fieldNameTruthy e.field = true →
      ∀ (flds : List RawField) (fmap : List FMapEntry) (i j : Nat),
        flds[j]? = some f → fmap[i + j]? = some e →
        ((processFields fo fmap i flds).2.map Prod.snd)[j]? =
          some (formatRecordValue (fieldGet f t) e.typeName fo)) ∧
    (∀ (fo : FormatOptions) (fmap : List FMapEntry) (i : Nat) (flds : List RawField) (j : Nat)
        (f : RawField), flds[j]? = some f →
      (processFields fo fmap i flds).1[i + j]? = (fmap[i + j]?).map (entryStep f)) :=
  ⟨rfl,
   fun fo rows fmap r j row f => processRows_positional_null fo rows fmap r j row f,
   fun fo t f e hN ht htr => processFields_snd_memoized fo t f e hN ht htr,
   fun fo fmap i flds j f hj => processFields_fst_get fo fmap i flds j f hj⟩

/-- Witness for C3: a single-row result set whose only field carries the
isNull marker projects to an array holding null. -/
theorem claimC3_witness :
    ∃ vs, (processRows ⟨true, false⟩ false (initFmap (some [⟨"c0", "VARCHAR"⟩]) 1)
        [[[("isNull", JSVal.bool true)]]])[0]? = some (JSVal.arr vs) ∧
      vs[0]? = some JSVal.null :=
  claimC3_field_type_memoization.2.1 ⟨true, false⟩ [[[("isNull", JSVal.bool true)]]]
    (initFmap (some [⟨"c0", "VARCHAR"⟩]) 1) 0 0 [[("isNull", JSVal.bool true)]]
    [("isNull", JSVal.bool true)] rfl rfl rfl

/-- Digit characters are digits. -/
theorem digitC_isDigit (d : Nat) (h : d < 10) : (digitC d).isDigit = true := by
  interval_cases d <;> decide

/-- Parsing a digit character back to its value. -/
theorem digitC_toNat (d : Nat) (h : d < 10) : (digitC d).toNat - 48 = d := by
  interval_cases d <;> decide

/-- The fuel of digitsRevAux is irrelevant once it covers the number. -/
theorem digitsRevAux_fuel : ∀ (f1 f2 n : Nat), n < f1 → n < f2 →
    digitsRevAux f1 n = digitsRevAux f2 n := by
  intro f1
  induction f1 with
  | zero => intro f2 n h1; exact absurd h1 (Nat.not_lt_zero n)
  | succ f1 ih =>
    intro f2 n h1 h2
    cases f2 with
    | zero => exact absurd h2 (Nat.not_lt_zero n)
    | succ f2 =>
      by_cases h : n < 10
      · simp [digitsRevAux, h]
      · have hdn : n / 10 < n := Nat.div_lt_self (by omega) (by omega)
        simp [digitsRevAux, h, ih f2 (n / 10) (by omega) (by omega)]

/-- Every character emitted by digitsRevAux is a digit. -/
theorem digitsRevAux_all_digits : ∀ (fuel n : Nat), n < fuel →
    ∀ c ∈ digitsRevAux fuel n, c.isDigit = true := by
  intro fuel
  induction fuel with
  | zero => intro n h; exact absurd h (Nat.not_lt_zero n)
  | succ fuel ih =>
    intro n h c hc
    by_cases h10 : n < 10
    · simp [digitsRevAux, h10] at hc
      subst hc
      exact digitC_isDigit n h10
    · simp [digitsRevAux, h10] at hc
      rcases hc with hc | hc
      · subst hc
        exact digitC_isDigit _ (Nat.mod_lt n (by omega))
      · have hdn : n / 10 < n := Nat.div_lt_self (by omega) (by omega)
        exact ih (n / 10) (by omega) c hc

/-- Appending one digit multiplies the parsed prefix by ten. -/
theorem parseDec_append (xs : List Char) (c : Char) :
    parseDec (xs ++ [c]) = 10 * parseDec xs + (c.toNat - 48) := by
  simp [parseDec, List.foldl_append]

/-- The big-endian parse of the emitted digits recovers the number. -/
theorem digitsRevAux_parse : ∀ (fuel n : Nat), n < fuel →
    parseDec (digitsRevAux fuel n).reverse = n := by
  intro fuel
  induction fuel with
  | zero => intro n h; exact absurd h (Nat.not_lt_zero n)
  | succ fuel ih =>
    intro n h
    by_cases h10 : n < 10
    · simp [digitsRevAux, h10, parseDec, digitC_toNat n h10]
    · have hdn : n / 10 < n := Nat.div_lt_self (by omega) (by omega)
      have hstep : digitsRevAux (fuel + 1) n = digitC (n % 10) :: digitsRevAux fuel (n / 10) := by
        simp [digitsRevAux, h10]
      rw [hstep, List.reverse_cons, parseDec_append, ih (n / 10) (by omega),
        digitC_toNat _ (Nat.mod_lt n (by omega))]
      omega

/-- The digit count of the rendering is fixed by the magnitude. -/
theorem digitsRevAux_length : ∀ (fuel n k : Nat), n < fuel → 10 ^ k ≤ n → n < 10 ^ (k + 1) →
    (digitsRevAux fuel n).length = k + 1 := by
  intro fuel
  induction fuel with
  | zero => intro n k h; exact absurd h (Nat.not_lt_zero n)
  | succ fuel ih =>
    intro n k h h1 h2
    by_cases h10 : n < 10
    · have hk : k = 0 := by
        by_contra hk
        have h10k : (10 : Nat) = 10 ^ 1 := (pow_one 10).symm
        have : (10 : Nat) ^ 1 ≤ 10 ^ k := Nat.pow_le_pow_right (by omega) (by omega)
        omega
      subst hk
      simp [digitsRevAux, h10]
    · cases k with
      | zero =>
        rw [pow_one] at h2
        omega
      | succ k2 =>
        have hdn : n / 10 < n := Nat.div_lt_self (by omega) (by omega)
        have hl : 10 ^ k2 ≤ n / 10 := by
          rw [Nat.le_div_iff_mul_le (by omega)]
          calc 10 ^ k2 * 10 = 10 ^ (k2 + 1) := (pow_succ 10 k2).symm
            _ ≤ n := h1
        have hu : n / 10 < 10 ^ (k2 + 1) := by
          rw [Nat.div_lt_iff_lt_mul (by omega)]
          calc n < 10 ^ (k2 + 2) := h2
            _ = 10 ^ (k2 + 1) * 10 := pow_succ 10 (k2 + 1)
        simp [digitsRevAux, h10, ih (n / 10) k2 (by omega) hl hu]

/-- The decimal rendering of a one-digit number. -/
theorem decStr_data_lt10 (n : Nat) (h : n < 10) : (decStr n).data = [digitC n] := by
  simp [decStr, digitsRevAux, h]

/-- The decimal rendering of a two-digit number. -/
theorem decStr_data_two (n : Nat) (h1 : 10 ≤ n) (h2 : n ≤ 99) :
    (decStr n).data = [digitC (n / 10), digitC (n % 10)] := by
  have hdiv10 : n / 10 < 10 := by omega
  have hdn : n / 10 < n := Nat.div_lt_self (by omega) (by omega)
  have hstep : digitsRevAux (n + 1) n = digitC (n % 10) :: digitsRevAux n (n / 10) := by
    simp [digitsRevAux, show ¬ n < 10 by omega]
  have hfuel : digitsRevAux n (n / 10) = digitsRevAux (n / 10 + 1) (n / 10) :=
    digitsRevAux_fuel n (n / 10 + 1) (n / 10) (by omega) (by omega)
  simp [decStr, hstep, hfuel, digitsRevAux, hdiv10]
  omega

/-- The pad helper on an in-range value yields exactly two digit
characters. -/
theorem padStr_two_data (n : Nat) (h : n ≤ 99) :
    (padStr n 2).data = [digitC (n / 10), digitC (n % 10)] := by
  by_cases h10 : n < 10
  · have hd := decStr_data_lt10 n h10
    have hlen : (decStr n).length = 1 := by
      show (decStr n).data.length = 1
      rw [hd]
      rfl
    have hn0 : n / 10 = 0 := by omega
    have hnm : n % 10 = n := by omega
    simp only [padStr, hlen, String.data_append, hd, hn0, hnm]
    rfl
  · have hd := decStr_data_two n (by omega) h
    have hlen : (decStr n).length = 2 := by
      show (decStr n).data.length = 2
      rw [hd]
      rfl
    simp only [padStr, hlen, String.data_append, hd]
    rfl

/-- Two padded digit characters parse back to the value. -/
theorem parseDec_two (n : Nat) (h : n ≤ 99) :
    parseDec [digitC (n / 10), digitC (n % 10)] = n := by
  have h1 := digitC_toNat (n / 10) (by omega)
  have h2 := digitC_toNat (n % 10) (by omega)
  simp [parseDec, h1, h2]
  omega

/-- A list of length four is a four-element literal. -/
theorem exists_four_chars (l : List Char) (h : l.length = 4) :
    ∃ a b c d, l = [a, b, c, d] := by
  cases l with
  | nil => simp at h
  | cons a l1 =>
    cases l1 with
    | nil => simp at h
    | cons b l2 =>
      cases l2 with
      | nil => simp at h
      | cons c l3 =>
        cases l3 with
        | nil => simp at h
        | cons d l4 =>
          cases l4 with
          | nil => exact ⟨a, b, c, d, rfl⟩
          | cons e l5 => simp at h

/-- A four-digit year renders as four digit characters that parse back to
it. -/
theorem decStr_year (y : Nat) (h1 : 1000 ≤ y) (h2 : y ≤ 9999) :
    ∃ a b c d, (decStr y).data = [a, b, c, d] ∧
      ([a, b, c, d].all Char.isDigit) = true ∧ parseDec [a, b, c, d] = y := by
  have hlen : (decStr y).data.length = 4 := by
    show (digitsRevAux (y + 1) y).reverse.length = 4
    rw [List.length_reverse]
    refine digitsRevAux_length (y + 1) y 3 (by omega) ?_ ?_
    · norm_num
      omega
    · norm_num
      omega
  obtain ⟨a, b, c, d, habcd⟩ := exists_four_chars _ hlen
  have hrev : (decStr y).data = (digitsRevAux (y + 1) y).reverse := rfl
  refine ⟨a, b, c, d, habcd, ?_, ?_⟩
  · rw [List.all_eq_true]
    intro c2 hc2
    rw [← habcd, hrev, List.mem_reverse] at hc2
    exact digitsRevAux_all_digits (y + 1) y (by omega) c2 hc2
  · have hp := digitsRevAux_parse (y + 1) y (by omega)
    rw [← hrev, habcd] at hp
    exact hp

/-- The timestamp pattern match on a well-shaped nineteen-character list. -/
theorem tsMatchL_19 (y1 y2 y3 y4 o1 o2 d1 d2 h1 h2 i1 i2 s1 s2 : Char)
    (hd : ([y1, y2, y3, y4, o1, o2, d1, d2, h1, h2, i1, i2, s1, s2].all Char.isDigit) = true) :
    tsMatchL [y1, y2, y3, y4, '-', o1, o2, '-', d1, d2, ' ', h1, h2, ':', i1, i2, ':', s1, s2] =
      some (parseDec [y1, y2, y3, y4], parseDec [o1, o2], parseDec [d1, d2],
        parseDec [h1, h2], parseDec [i1, i2], parseDec [s1, s2], 0) := by
  simp only [tsMatchL, hd, if_true]

/-- The rendered timestamp of in-range fields with zero milliseconds is
matched by the naive pattern and parses back to the same fields. -/
theorem tsMatchL_render (f : DateFields) (hms : f.ms = 0)
    (hy1 : 1000 ≤ f.year) (hy2 : f.year ≤ 9999) (hmo : f.month ≤ 11)
    (hd : f.day ≤ 31) (hh : f.hours ≤ 23) (hmi : f.minutes ≤ 59) (hs : f.seconds ≤ 59) :
    tsMatchL (renderTimeStamp f).data =
      some (f.year, f.month + 1, f.day, f.hours, f.minutes, f.seconds, 0) := by
  obtain ⟨a, b, c, d, hY, hYd, hYp⟩ := decStr_year f.year hy1 hy2
  have hMo := padStr_two_data (f.month + 1) (by omega)
  have hD := padStr_two_data f.day (by omega)
  have hH := padStr_two_data f.hours (by omega)
  have hMi := padStr_two_data f.minutes (by omega)
  have hS := padStr_two_data f.seconds (by omega)
  have hdash : ("-" : String).data = ['-'] := rfl
  have hsp : (" " : String).data = [' '] := rfl
  have hcol : (":" : String).data = [':'] := rfl
  have hdata : (renderTimeStamp f).data =
      [a, b, c, d, '-', digitC ((f.month + 1) / 10), digitC ((f.month + 1) % 10), '-',
       digitC (f.day / 10), digitC (f.day % 10), ' ',
       digitC (f.hours / 10), digitC (f.hours % 10), ':',
       digitC (f.minutes / 10), digitC (f.minutes % 10), ':',
       digitC (f.seconds / 10), digitC (f.seconds % 10)] := by
    simp [renderTimeStamp, hms, String.data_append, hY, hMo, hD, hH, hMi, hS,
      hdash, hsp, hcol]
  rw [hdata]
  simp only [List.all_cons, List.all_nil, Bool.and_eq_true] at hYd
  have hdig : ([a, b, c, d, digitC ((f.month + 1) / 10), digitC ((f.month + 1) % 10),
      digitC (f.day / 10), digitC (f.day % 10), digitC (f.hours / 10), digitC (f.hours % 10),
      digitC (f.minutes / 10), digitC (f.minutes % 10), digitC (f.seconds / 10),
      digitC (f.seconds % 10)].all Char.isDigit) = true := by
    simp only [List.all_cons, List.all_nil, Bool.and_eq_true]
    refine ⟨hYd.1, hYd.2.1, hYd.2.2.1, hYd.2.2.2.1, ?_, ?_, ?_, ?_, ?_, ?_, ?_, ?_, ?_, ?_, trivial⟩ <;>
      exact digitC_isDigit _ (by omega)
  rw [tsMatchL_19 a b c d _ _ _ _ _ _ _ _ _ _ hdig]
  rw [hYp, parseDec_two (f.month + 1) (by omega), parseDec_two f.day (by omega),
    parseDec_two f.hours (by omega), parseDec_two f.minutes (by omega),
    parseDec_two f.seconds (by omega)]

/-- The broken-down field ranges of a JS Date: months 0 to 11, days within
the month, time fields in range, and a year within the representable span
of JS instants (up to the year 275760). -/
def ValidDateFields (f : DateFields) : Prop :=
  1 ≤ f.year ∧ f.year ≤ 275760 ∧ f.month ≤ 11 ∧ 1 ≤ f.day ∧
    f.day ≤ daysInMonth f.year (f.month + 1) ∧ f.hours ≤ 23 ∧ f.minutes ≤ 59 ∧
    f.seconds ≤ 59 ∧ f.ms ≤ 999

/-- Equality of two dates at second granularity.  It is determinate in the
model only for dates with known UTC fields (a host-parsed date carries no
field values that could be asserted equal). -/
def dateEqAtSecond (a b : JSDate) : Prop :=
  ∃ fa fb, a = .fromUTCFields fa ∧ b = .fromUTCFields fb ∧
    fa.year = fb.year ∧ fa.month = fb.month ∧ fa.day = fb.day ∧
    fa.hours = fb.hours ∧ fa.minutes = fb.minutes ∧ fa.seconds = fb.seconds

/-- No month has more than thirty-one days. -/
theorem daysInMonth_le_31 (y m : Nat) : daysInMonth y m ≤ 31 := by
  unfold daysInMonth
  split_ifs <;> omega

/-- C7 counterexample: a valid date with zero milliseconds whose year does
not render as four digits.  Its wire string fails the four-digit regex of
formatFromTimeStamp, so the parse falls to the as-given branch (new Date on
a naive string, host and timezone dependent) instead of reconstructing the
UTC instant, and equality with the original date at second granularity is
not guaranteed. -/
theorem claimC7_cex :
    ValidDateFields ⟨500, 0, 1, 0, 0, 0, 0⟩ ∧
      (⟨500, 0, 1, 0, 0, 0, 0⟩ : DateFields).ms = 0 ∧
      ¬ dateEqAtSecond
        (formatFromTimeStamp
          (.str (formatToTimeStamp host0 (.fromUTCFields ⟨500, 0, 1, 0, 0, 0, 0⟩) false)) false)
        (.fromUTCFields ⟨500, 0, 1, 0, 0, 0, 0⟩) := by
  refine ⟨?_, rfl, ?_⟩
  · exact ⟨by decide, by decide, by decide, by decide, by decide, by decide, by decide, by decide, by decide⟩
  · intro h
    obtain ⟨fa, fb, ha, hb, hrest⟩ := h
    rw [show formatFromTimeStamp
        (.str (formatToTimeStamp host0 (.fromUTCFields ⟨500, 0, 1, 0, 0, 0, 0⟩) false)) false =
        .hostParsed "500-01-01 00:00:00" from rfl] at ha
    exact JSDate.noConfusion ha

/-- C7 as amended: for every host and every valid date with zero UTC
milliseconds whose year renders as four digits (1000 to 9999), formatting
with treatAsLocalDate false and parsing the result back with
treatAsLocalDate false reconstructs the same UTC instant at second
granularity. -/
theorem claimC7_roundtrip_amended :
    ∀ (host : Host) (f : DateFields), ValidDateFields f → f.ms = 0 →
      1000 ≤ f.year → f.year ≤ 9999 →
      dateEqAtSecond
        (formatFromTimeStamp (.str (formatToTimeStamp host (.fromUTCFields f) false)) false)
        (.fromUTCFields f) := by
  intro host f hv hms hy1 hy2
  obtain ⟨hvy1, hvy2, hmo, hd1, hd2, hh, hmi, hsec, hmsr⟩ := hv
  have hd31 : f.day ≤ 31 := le_trans hd2 (daysInMonth_le_31 f.year (f.month + 1))
  have hfmt : formatToTimeStamp host (.fromUTCFields f) false = renderTimeStamp f := by
    simp [formatToTimeStamp, host.utcView_fromUTCFields]
  have hmatch := tsMatchL_render f hms hy1 hy2 hmo hd31 hh hmi hsec
  have hparse : formatFromTimeStamp (.str (renderTimeStamp f)) false =
      .fromUTCFields ⟨f.year, f.month, f.day, f.hours, f.minutes, f.seconds, 0⟩ := by
    simp only [formatFromTimeStamp, jsToString, hmatch]
    rw [if_pos ⟨by omega, by omega, hd1, hd2, hh, hmi, hsec⟩]
    simp
  rw [hfmt, hparse]
  exact ⟨⟨f.year, f.month, f.day, f.hours, f.minutes, f.seconds, 0⟩, f,
    rfl, rfl, rfl, rfl, rfl, rfl, rfl, rfl⟩

/-- Witness for C7 as amended at a concrete date and the concrete host. -/
theorem claimC7_witness :
    ValidDateFields ⟨2020, 0, 15, 12, 34, 56, 0⟩ ∧
      dateEqAtSecond
        (formatFromTimeStamp
          (.str (formatToTimeStamp host0 (.fromUTCFields ⟨2020, 0, 15, 12, 34, 56, 0⟩) false)) false)
        (.fromUTCFields ⟨2020, 0, 15, 12, 34, 56, 0⟩) :=
  ⟨⟨by decide, by decide, by decide, by decide, by decide, by decide, by decide, by decide, by decide⟩,
   claimC7_roundtrip_amended host0 ⟨2020, 0, 15, 12, 34, 56, 0⟩
     ⟨by decide, by decide, by decide, by decide, by decide, by decide, by decide, by decide, by decide⟩
     rfl (by decide) (by decide)⟩
